import Mathlib

/-!
Verification of the notification deduplication logic of
`src/electron.js` (function `isDuplicateNotification`, the module-level
`recentNotifications` map and the constant `DEDUP_WINDOW_MS`).

The JavaScript state is the `Map` from tag to timestamp; a JS `Map`
preserves insertion order and has unique keys, so it is embedded as an
association list `List (String × Int)` together with a `NodupKeys`
invariant where key uniqueness matters.  Timestamps come from
`Date.now()` and are embedded as `Int` (JS number arithmetic on these
integral values is exact).  The notification `tag` may be `undefined`
or a string, embedded as `Option String`; the JS truthiness test
`!tag` is false exactly for `undefined`/`null` and the empty string.
Note that the guard `lastShown && (now - lastShown) < DEDUP_WINDOW_MS`
also treats a stored timestamp of `0` as falsy: this is modelled
faithfully.
-/

namespace NotifDedup

/-- State of the module-level `recentNotifications` map: tag -> timestamp,
in insertion order. -/
abbrev NotifMap := List (String × Int)

/-- `const DEDUP_WINDOW_MS = 2000;` -/
def DEDUP_WINDOW_MS : Int := 2000

/-- `recentNotifications.get(tag)`: first (and, under `NodupKeys`, only)
binding of `tag`. -/
def getTag : NotifMap → String → Option Int
  | [], _ => none
  | (k, v) :: rest, tg => if k = tg then some v else getTag rest tg

/-- `recentNotifications.set(tag, now)`: update the existing binding in
place, or append a new one (JS `Map.set` semantics). -/
def setTag : NotifMap → String → Int → NotifMap
  | [], tg, v => [(tg, v)]
  | (k, v0) :: rest, tg, v =>
      if k = tg then (k, v) :: rest else (k, v0) :: setTag rest tg v

/-- The sweep keeps an entry iff `¬ (timestamp < cutoff)`, matching
`if (timestamp < cutoff) recentNotifications.delete(key)`. -/
def sweepKeep (cutoff : Int) (p : String × Int) : Bool :=
  ! decide (p.2 < cutoff)

/-- The acceptance path of `isDuplicateNotification`: write the record,
then, if the map now holds more than 100 entries, delete every entry
older than `now - DEDUP_WINDOW_MS * 2`; return `false`. -/
def writeAndSweep (m : NotifMap) (tg : String) (now : Int) : Bool × NotifMap :=
  let m1 := setTag m tg now
  let m2 :=
    if 100 < m1.length then m1.filter (sweepKeep (now - DEDUP_WINDOW_MS * 2))
    else m1
  (false, m2)

/-- `function isDuplicateNotification(tag)` of `src/electron.js`, with the
map state and `Date.now()` passed explicitly.  Returns the boolean result
together with the state of `recentNotifications` after the call.
`if (!tag) return false;` covers `undefined` and the empty string; the
guard `lastShown && (now - lastShown) < DEDUP_WINDOW_MS` requires the
stored timestamp to be truthy, i.e. nonzero. -/
def isDuplicateNotification (m : NotifMap) (tag : Option String) (now : Int) :
    Bool × NotifMap :=
  match tag with
  | none => (false, m)
  | some tg =>
    if tg = "" then (false, m)
    else
      match getTag m tg with
      | some lastShown =>
          if lastShown ≠ 0 ∧ now - lastShown < DEDUP_WINDOW_MS then (true, m)
          else writeAndSweep m tg now
      | none => writeAndSweep m tg now

/-- Run a sequence of calls with one fixed tag at the given timestamps,
returning the list of (timestamp, result) pairs. -/
def trace (tag : Option String) : NotifMap → List Int → List (Int × Bool)
  | _, [] => []
  | m, t :: rest =>
      let r := isDuplicateNotification m tag t
      (t, r.1) :: trace tag r.2 rest

/-- Run a sequence of calls (tag, timestamp), returning the final map. -/
def runCalls : NotifMap → List (Option String × Int) → NotifMap
  | m, [] => m
  | m, (tag, t) :: rest => runCalls (isDuplicateNotification m tag t).2 rest

/-- A JS `Map` has unique keys; association lists representing one
satisfy this invariant. -/
def NodupKeys (m : NotifMap) : Prop := (m.map Prod.fst).Nodup

/-- Concrete scenario for the bounded-memory claim: 150 distinct tags at
strictly increasing timestamps 5000, 10000, ..., with gaps larger than
twice the window. -/
def c8calls : List (Option String × Int) :=
  (List.range 150).map (fun i => (some ("t" ++ toString i), 5000 * ((i : Int) + 1)))

/-! ### Helper lemmas about the map operations -/

theorem getTag_setTag (m : NotifMap) (tg : String) (v : Int) :
    getTag (setTag m tg v) tg = some v := by
  induction m with
  | nil => simp [setTag, getTag]
  | cons p rest ih =>
    obtain ⟨k, v0⟩ := p
    by_cases h : k = tg
    · simp [setTag, h, getTag]
    · simp [setTag, h, getTag, ih]

theorem getTag_filter (m : NotifMap) (tg : String) (v : Int)
    (pred : String × Int → Bool)
    (hget : getTag m tg = some v) (hkeep : pred (tg, v) = true) :
    getTag (m.filter pred) tg = some v := by
  induction m with
  | nil => simp [getTag] at hget
  | cons p rest ih =>
    obtain ⟨k, w⟩ := p
    by_cases h : k = tg
    · subst h
      simp only [getTag, if_true, eq_self_iff_true, Option.some.injEq] at hget
      subst hget
      simp [List.filter_cons, hkeep, getTag]
    · simp only [getTag, if_neg h] at hget
      rcases hp : pred (k, w) with _ | _
      · simp [List.filter_cons, hp, ih hget]
      · simp [List.filter_cons, hp, getTag, h, ih hget]

theorem writeAndSweep_fst (m : NotifMap) (tg : String) (now : Int) :
    (writeAndSweep m tg now).1 = false := by
  unfold writeAndSweep
  by_cases h : 100 < (setTag m tg now).length <;> simp [h]

theorem writeAndSweep_snd (m : NotifMap) (tg : String) (now : Int) :
    (writeAndSweep m tg now).2 =
      if 100 < (setTag m tg now).length then
        (setTag m tg now).filter (sweepKeep (now - DEDUP_WINDOW_MS * 2))
      else setTag m tg now := rfl

theorem writeAndSweep_getTag (m : NotifMap) (tg : String) (now : Int) :
    getTag (writeAndSweep m tg now).2 tg = some now := by
  unfold writeAndSweep
  by_cases h : 100 < (setTag m tg now).length
  · simp only [h, if_pos]
    refine getTag_filter _ _ _ _ (getTag_setTag m tg now) ?_
    simp only [sweepKeep, DEDUP_WINDOW_MS, Bool.not_eq_true']
    simp only [decide_eq_false_iff_not]
    omega
  · simp [h, getTag_setTag]

/-- Shared lemma: a call with a non-empty tag that returns "not a duplicate"
leaves the tag bound to `now` in the resulting map. -/
theorem accept_getTag (m : NotifMap) (tg : String) (now : Int) (htg : tg ≠ "")
    (hacc : (isDuplicateNotification m (some tg) now).1 = false) :
    getTag (isDuplicateNotification m (some tg) now).2 tg = some now := by
  rcases hgt : getTag m tg with _ | l
  · simp [isDuplicateNotification, htg, hgt, writeAndSweep_getTag]
  · by_cases hc : l ≠ 0 ∧ now - l < DEDUP_WINDOW_MS
    · simp [isDuplicateNotification, htg, hgt, hc] at hacc
    · simp [isDuplicateNotification, htg, hgt, hc, writeAndSweep_getTag]

/-- The just-written record always passes the sweep predicate of its own
call: `now` is never older than `now - 2 * window`. -/
theorem sweepKeep_now (now : Int) (tg : String) :
    sweepKeep (now - DEDUP_WINDOW_MS * 2) (tg, now) = true := by
  simp only [sweepKeep, DEDUP_WINDOW_MS, Bool.not_eq_true', decide_eq_false_iff_not]
  omega

/-- Shared lemma: a call with a non-empty tag that returns "not a
duplicate" leaves the state produced by the write-and-sweep path. -/
theorem accept_snd (m : NotifMap) (tg : String) (now : Int) (htg : tg ≠ "")
    (hacc : (isDuplicateNotification m (some tg) now).1 = false) :
    (isDuplicateNotification m (some tg) now).2 = (writeAndSweep m tg now).2 := by
  rcases hgt : getTag m tg with _ | l
  · simp [isDuplicateNotification, htg, hgt]
  · by_cases hc : l ≠ 0 ∧ now - l < DEDUP_WINDOW_MS
    · simp [isDuplicateNotification, htg, hgt, hc] at hacc
    · simp [isDuplicateNotification, htg, hgt, hc]

/-- Shared lemma: if the tag is absent or its stored timestamp is at least
one window old, the call returns "not a duplicate". -/
theorem accept_fst (m : NotifMap) (tg : String) (now : Int) (htg : tg ≠ "")
    (h : getTag m tg = none ∨
      ∃ t, getTag m tg = some t ∧ DEDUP_WINDOW_MS ≤ now - t) :
    (isDuplicateNotification m (some tg) now).1 = false := by
  rcases h with hgt | ⟨t, hgt, hold⟩
  · simp [isDuplicateNotification, htg, hgt, writeAndSweep_fst]
  · have hc : ¬ (t ≠ 0 ∧ now - t < DEDUP_WINDOW_MS) := fun hc =>
      absurd hc.2 (not_lt.mpr hold)
    simp [isDuplicateNotification, htg, hgt, hc, writeAndSweep_fst]

/-- Filtering for a key that occurs nowhere yields the empty list. -/
theorem keyFilter_of_not_mem (m : NotifMap) (tg : String)
    (h : tg ∉ m.map Prod.fst) :
    m.filter (fun p => decide (p.1 = tg)) = [] := by
  induction m with
  | nil => rfl
  | cons p rest ih =>
    obtain ⟨k, v⟩ := p
    simp only [List.map_cons, List.mem_cons] at h
    push_neg at h
    have hk : ¬ (k = tg) := fun he => h.1 he.symm
    simp [List.filter_cons, hk, ih h.2]

/-- With unique keys, after `setTag` the key `tg` occurs exactly once,
bound to the written value. -/
theorem keyFilter_setTag (m : NotifMap) (tg : String) (v : Int)
    (hnd : NodupKeys m) :
    (setTag m tg v).filter (fun p => decide (p.1 = tg)) = [(tg, v)] := by
  induction m with
  | nil => simp [setTag, List.filter_cons]
  | cons p rest ih =>
    obtain ⟨k, v0⟩ := p
    simp only [NodupKeys, List.map_cons, List.nodup_cons] at hnd
    by_cases h : k = tg
    · subst h
      simp [setTag, List.filter_cons, keyFilter_of_not_mem rest k hnd.1]
    · simp [setTag, h, List.filter_cons, ih hnd.2]

/-- Key induction for the temporal claim: once the tag is bound to a
nonzero timestamp `v` no later than every remaining call time, every
later accepting call happens at least one window after `v`. -/
theorem trace_accepts_late (tg : String) (htg : tg ≠ "") :
    ∀ (ts : List Int) (m : NotifMap) (v : Int),
      getTag m tg = some v → v ≠ 0 →
      (∀ t ∈ ts, v ≤ t) → (∀ t ∈ ts, t ≠ 0) → ts.Sorted (· ≤ ·) →
      ∀ p ∈ trace (some tg) m ts, p.2 = false → DEDUP_WINDOW_MS ≤ p.1 - v := by
  intro ts
  induction ts with
  | nil =>
    intro m v _ _ _ _ _ p hp
    simp [trace] at hp
  | cons t rest ih =>
    intro m v hget hnz hle hnz' hsort p hp hpf
    rw [List.sorted_cons] at hsort
    by_cases hw : t - v < DEDUP_WINDOW_MS
    · have hr : isDuplicateNotification m (some tg) t = (true, m) := by
        simp [isDuplicateNotification, htg, hget, hnz, hw]
      simp only [trace, hr] at hp
      rcases List.mem_cons.mp hp with hph | hpt
      · rw [hph] at hpf
        exact absurd hpf (by simp)
      · exact ih m v hget hnz (fun t' ht' => hle t' (List.mem_cons_of_mem t ht'))
          (fun t' ht' => hnz' t' (List.mem_cons_of_mem t ht')) hsort.2 p hpt hpf
    · have hw' : ¬ (v ≠ 0 ∧ t - v < DEDUP_WINDOW_MS) := fun hc => hw hc.2
      have hr1 : (isDuplicateNotification m (some tg) t).1 = false := by
        simp [isDuplicateNotification, htg, hget, hw', writeAndSweep_fst]
      have hr2 : getTag (isDuplicateNotification m (some tg) t).2 tg = some t :=
        accept_getTag m tg t htg hr1
      simp only [trace, hr1] at hp
      rcases List.mem_cons.mp hp with hph | hpt
      · rw [hph]
        exact not_lt.mp hw
      · have hrec := ih (isDuplicateNotification m (some tg) t).2 t hr2
          (hnz' t (List.mem_cons_self t rest)) hsort.1
          (fun t' ht' => hnz' t' (List.mem_cons_of_mem t ht')) hsort.2 p hpt hpf
        have hvt : v ≤ t := hle t (List.mem_cons_self t rest)
        calc DEDUP_WINDOW_MS ≤ p.1 - t := hrec
          _ ≤ p.1 - v := by exact sub_le_sub_left hvt p.1

/-! ### Claims -/

/-- C4: for every map state and timestamp, a call whose tag is absent
(`undefined`) or the empty string returns "not a duplicate". -/
theorem c4_falsy_tag_never_suppressed (m : NotifMap) (now : Int) :
    (isDuplicateNotification m none now).1 = false ∧
    (isDuplicateNotification m (some "") now).1 = false := by
  constructor <;> simp [isDuplicateNotification]

/-- C5: after acceptance of tag "x" at t=1000, a request at t=2999 is a
duplicate and a request at t=3000 is not: the window comparison is strict
at exactly 2000 ms elapsed. -/
theorem c5_window_boundary_strict :
    (isDuplicateNotification (isDuplicateNotification [] (some "x") 1000).2
        (some "x") 2999).1 = true ∧
    (isDuplicateNotification (isDuplicateNotification [] (some "x") 1000).2
        (some "x") 3000).1 = false := by
  decide

/-- C10: whenever the call returns "duplicate", and likewise on the
absent/empty-tag path, the map is left completely unchanged. -/
theorem c10_duplicate_path_frame (m : NotifMap) (tag : Option String) (now : Int)
    (h : (isDuplicateNotification m tag now).1 = true ∨ tag = none ∨ tag = some "") :
    (isDuplicateNotification m tag now).2 = m := by
  rcases tag with _ | tg
  · simp [isDuplicateNotification]
  · by_cases htg : tg = ""
    · simp [isDuplicateNotification, htg]
    · rcases h with h | h | h
      · rcases hgt : getTag m tg with _ | l
        · simp [isDuplicateNotification, htg, hgt, writeAndSweep_fst] at h
        · by_cases hc : l ≠ 0 ∧ now - l < DEDUP_WINDOW_MS
          · simp [isDuplicateNotification, htg, hgt, hc]
          · simp [isDuplicateNotification, htg, hgt, hc, writeAndSweep_fst] at h
      · exact absurd h (by simp)
      · exact absurd (Option.some.inj h) htg

/-- C10 witness. -/
theorem c10_duplicate_path_frame_witness :
    (isDuplicateNotification [("x", 100)] (some "x") 101).2 = [("x", 100)] :=
  c10_duplicate_path_frame [("x", 100)] (some "x") 101 (Or.inl (by decide))

/-- C2 counterexample: the claim fails at stored timestamp 0.  With the
record ("x", 0) and now = 1000 (within the window), the guard
`lastShown && ...` sees the falsy value 0, so the call returns "not a
duplicate" and overwrites the record, contradicting the claim. -/
theorem c2_counterexample :
    getTag [("x", 0)] "x" = some 0 ∧ (1000 : Int) - 0 < DEDUP_WINDOW_MS ∧
    (isDuplicateNotification [("x", 0)] (some "x") 1000).1 = false ∧
    (isDuplicateNotification [("x", 0)] (some "x") 1000).2 = [("x", 1000)] := by
  decide

/-- C2 (amended to nonzero stored timestamps): a non-empty tag bound to a
nonzero timestamp `t` with `now - t < 2000` yields "duplicate" and the
whole map, in particular that tag's record, is unchanged. -/
theorem c2_duplicate_keeps_record (m : NotifMap) (tg : String) (t now : Int)
    (htg : tg ≠ "") (hget : getTag m tg = some t) (hnz : t ≠ 0)
    (hwin : now - t < DEDUP_WINDOW_MS) :
    isDuplicateNotification m (some tg) now = (true, m) := by
  simp [isDuplicateNotification, htg, hget, hnz, hwin]

/-- C2 witness. -/
theorem c2_duplicate_keeps_record_witness :
    isDuplicateNotification [("x", 5)] (some "x") 6 = (true, [("x", 5)]) :=
  c2_duplicate_keeps_record [("x", 5)] "x" 5 6 (by decide) (by decide)
    (by decide) (by decide)

/-- C9 counterexample: the claim fails at stored timestamp 0.  Two states
bind "x" with the same elapsed time (1000 ms), yet one call accepts
(stored 0 is falsy) and the other suppresses. -/
theorem c9_counterexample :
    getTag [("x", 0)] "x" = some 0 ∧ getTag [("x", 500)] "x" = some 500 ∧
    (1000 : Int) - 0 = (1500 : Int) - 500 ∧
    (isDuplicateNotification [("x", 0)] (some "x") 1000).1 = false ∧
    (isDuplicateNotification [("x", 500)] (some "x") 1500).1 = true := by
  decide

/-- C9 (amended to nonzero stored timestamps): the decision depends only
on the tag and the elapsed time since its stored acceptance, not on other
map contents or absolute timestamps. -/
theorem c9_decision_only_elapsed (m1 m2 : NotifMap) (tg : String)
    (t1 t2 now1 now2 : Int) (htg : tg ≠ "")
    (h1 : getTag m1 tg = some t1) (h2 : getTag m2 tg = some t2)
    (hnz1 : t1 ≠ 0) (hnz2 : t2 ≠ 0)
    (helapsed : now1 - t1 = now2 - t2) :
    (isDuplicateNotification m1 (some tg) now1).1 =
      (isDuplicateNotification m2 (some tg) now2).1 := by
  by_cases hw : now1 - t1 < DEDUP_WINDOW_MS
  · have hw2 : now2 - t2 < DEDUP_WINDOW_MS := helapsed ▸ hw
    simp [isDuplicateNotification, htg, h1, h2, hnz1, hnz2, hw, hw2]
  · have hw2 : ¬ now2 - t2 < DEDUP_WINDOW_MS := helapsed ▸ hw
    simp [isDuplicateNotification, htg, h1, h2, hw, hw2, writeAndSweep_fst]

/-- C1 counterexample: the claim fails when a call happens at timestamp 0.
Starting from the empty map, calls with tag "x" at the non-decreasing
times 0 and 1000 both return "not a duplicate", although they are only
1000 ms (less than one window) apart: the record written by the first
call stores the falsy timestamp 0, which the second call's guard
`lastShown && ...` ignores. -/
theorem c1_counterexample :
    trace (some "x") [] [(0 : Int), 1000] = [(0, false), (1000, false)] ∧
    (0 : Int) ≤ 1000 ∧ (1000 : Int) - 0 < DEDUP_WINDOW_MS := by
  decide

/-- C1 (amended to nonzero call timestamps): in any sequence of calls with
one fixed non-empty tag at non-decreasing nonzero timestamps, from any
starting map, no two calls that both return "not a duplicate" are less
than one window (2000 ms) apart. -/
theorem c1_dedup_window_between_accepts (tg : String) (htg : tg ≠ "")
    (ts : List Int) (hsort : ts.Sorted (· ≤ ·)) (hnz : ∀ t ∈ ts, t ≠ 0)
    (m : NotifMap) :
    (trace (some tg) m ts).Pairwise
      (fun a b => a.2 = true ∨ b.2 = true ∨ DEDUP_WINDOW_MS ≤ b.1 - a.1) := by
  induction ts generalizing m with
  | nil => simp [trace]
  | cons t rest ih =>
    rw [List.sorted_cons] at hsort
    have hnzrest : ∀ t' ∈ rest, t' ≠ 0 :=
      fun t' ht' => hnz t' (List.mem_cons_of_mem t ht')
    simp only [trace]
    refine List.pairwise_cons.mpr ⟨?_, ih hsort.2 hnzrest _⟩
    intro b hb
    rcases hr1 : (isDuplicateNotification m (some tg) t).1 with _ | _
    · by_cases hb2 : b.2 = true
      · exact Or.inr (Or.inl hb2)
      · refine Or.inr (Or.inr ?_)
        have hb2' : b.2 = false := by
          revert hb2
          cases b.2 <;> simp
        have hlate := trace_accepts_late tg htg rest
          (isDuplicateNotification m (some tg) t).2 t
          (accept_getTag m tg t htg hr1) (hnz t (List.mem_cons_self t rest))
          hsort.1 hnzrest hsort.2 b hb hb2'
        simpa using hlate
    · exact Or.inl rfl

set_option maxRecDepth 100000 in
/-- C8: from the empty map, the 150-call scenario `c8calls` (distinct
tags, strictly increasing timestamps with gaps above twice the window)
triggers at least one pruning sweep — the map shrinks between call 100
and call 101, and only the sweep branch ever removes entries — and the
final map holds fewer than 150 entries. -/
theorem c8_bounded_memory :
    c8calls.length = 150 ∧
    (c8calls.map Prod.fst).Nodup ∧
    (c8calls.map Prod.snd).Pairwise (fun a b => a + 4000 < b) ∧
    (runCalls [] (c8calls.take 101)).length <
      (runCalls [] (c8calls.take 100)).length ∧
    (runCalls [] c8calls).length < 150 := by
  decide

/-- C1 witness. -/
theorem c1_dedup_window_between_accepts_witness :
    (trace (some "x") [] [(1000 : Int), 3500]).Pairwise
      (fun a b => a.2 = true ∨ b.2 = true ∨ DEDUP_WINDOW_MS ≤ b.1 - a.1) :=
  c1_dedup_window_between_accepts "x" (by decide) [(1000 : Int), 3500]
    (by decide) (by decide) []

/-- C3: if a non-empty tag is absent, or stored at least one window ago,
the call accepts and afterwards the map holds exactly one record for the
tag, bound to `now`. -/
theorem c3_accept_writes_exactly_one (m : NotifMap) (tg : String) (now : Int)
    (htg : tg ≠ "") (hnd : NodupKeys m)
    (h : getTag m tg = none ∨
      ∃ t, getTag m tg = some t ∧ DEDUP_WINDOW_MS ≤ now - t) :
    (isDuplicateNotification m (some tg) now).1 = false ∧
    getTag (isDuplicateNotification m (some tg) now).2 tg = some now ∧
    ((isDuplicateNotification m (some tg) now).2.filter
        (fun p => decide (p.1 = tg))).length = 1 := by
  have hacc := accept_fst m tg now htg h
  refine ⟨hacc, accept_getTag m tg now htg hacc, ?_⟩
  rw [accept_snd m tg now htg hacc, writeAndSweep_snd]
  by_cases hlen : 100 < (setTag m tg now).length
  · rw [if_pos hlen, List.filter_comm, keyFilter_setTag m tg now hnd]
    simp [List.filter_cons, sweepKeep_now]
  · rw [if_neg hlen, keyFilter_setTag m tg now hnd]
    rfl

/-- C3 witness. -/
theorem c3_accept_writes_exactly_one_witness :
    (isDuplicateNotification [("y", 3)] (some "x") 9).1 = false ∧
    getTag (isDuplicateNotification [("y", 3)] (some "x") 9).2 "x" = some 9 ∧
    ((isDuplicateNotification [("y", 3)] (some "x") 9).2.filter
        (fun p => decide (p.1 = "x"))).length = 1 :=
  c3_accept_writes_exactly_one [("y", 3)] "x" 9 (by decide)
    (by simp [NodupKeys]) (Or.inl (by decide))

/-- C6: on an accepting call, if the map holds more than 100 entries after
the write, every record older than `now - 2 * window` is removed; if it
holds at most 100 entries, the map is left exactly as written, with no
sweep. -/
theorem c6_sweep_policy (m : NotifMap) (tg : String) (now : Int)
    (htg : tg ≠ "")
    (hacc : (isDuplicateNotification m (some tg) now).1 = false) :
    (100 < (setTag m tg now).length →
      (isDuplicateNotification m (some tg) now).2 =
        (setTag m tg now).filter (sweepKeep (now - DEDUP_WINDOW_MS * 2)) ∧
      ∀ p ∈ setTag m tg now, p.2 < now - DEDUP_WINDOW_MS * 2 →
        p ∉ (isDuplicateNotification m (some tg) now).2) ∧
    ((setTag m tg now).length ≤ 100 →
      (isDuplicateNotification m (some tg) now).2 = setTag m tg now) := by
  rw [accept_snd m tg now htg hacc, writeAndSweep_snd]
  constructor
  · intro hlen
    rw [if_pos hlen]
    refine ⟨rfl, ?_⟩
    intro p hp hold hmem
    rw [List.mem_filter] at hmem
    have : ¬ (p.2 < now - DEDUP_WINDOW_MS * 2) := by
      have := hmem.2
      simpa [sweepKeep] using this
    exact this hold
  · intro hlen
    rw [if_neg (Nat.not_lt.mpr hlen)]

/-- C6 witness. -/
theorem c6_sweep_policy_witness :
    (100 < (setTag [] "x" 5).length →
      (isDuplicateNotification [] (some "x") 5).2 =
        (setTag [] "x" 5).filter (sweepKeep (5 - DEDUP_WINDOW_MS * 2)) ∧
      ∀ p ∈ setTag [] "x" 5, p.2 < 5 - DEDUP_WINDOW_MS * 2 →
        p ∉ (isDuplicateNotification [] (some "x") 5).2) ∧
    ((setTag [] "x" 5).length ≤ 100 →
      (isDuplicateNotification [] (some "x") 5).2 = setTag [] "x" 5) :=
  c6_sweep_policy [] "x" 5 (by decide) (by decide)

/-- C7: an accepting call's own sweep never removes the record it just
wrote: afterwards the tag is still bound to `now`. -/
theorem c7_sweep_keeps_new_record (m : NotifMap) (tg : String) (now : Int)
    (htg : tg ≠ "")
    (hacc : (isDuplicateNotification m (some tg) now).1 = false) :
    getTag (isDuplicateNotification m (some tg) now).2 tg = some now :=
  accept_getTag m tg now htg hacc

/-- C7 witness. -/
theorem c7_sweep_keeps_new_record_witness :
    getTag (isDuplicateNotification [] (some "x") 7).2 "x" = some 7 :=
  c7_sweep_keeps_new_record [] "x" 7 (by decide) (by decide)

/-- C9 witness. -/
theorem c9_decision_only_elapsed_witness :
    (isDuplicateNotification [("x", 5)] (some "x") 6).1 =
      (isDuplicateNotification [("x", 10)] (some "x") 11).1 :=
  c9_decision_only_elapsed [("x", 5)] [("x", 10)] "x" 5 10 6 11
    (by decide) (by decide) (by decide) (by decide) (by decide) (by decide)

end NotifDedup
